/-
  Verification of the order-lifecycle core of the wc-to-supabase automation
  (src/index.js and the webhook-mode variant in src/unnamed/part_002).

  The development shallowly embeds the JavaScript source:
  * a `JsVal` type models the dynamically-typed JSON values flowing through
    the item normalizer `extractItemsFromIncoming` (src/index.js lines 92-175),
    with JS numbers restricted to integers (plus NaN); fractional values do
    not occur in any property considered here;
  * `Except Unit` models JavaScript exceptions (`.error ()` = a thrown
    TypeError / SyntaxError escaping the modelled code);
  * the `orders` table row is the `Order` structure, `paid_order_items`
    rows are `LedgerEntry`, and each handler becomes a pure state
    transformer on those records.
-/
import Mathlib

namespace WcToSupabase

/-! ## JavaScript value model -/

/-- A JavaScript/JSON value. Numbers are restricted to integers plus NaN. -/
inductive JsVal where
  | null
  | undefVal
  | bool (b : Bool)
  | num (n : Int)
  | nan
  | str (s : String)
  | arr (elems : List JsVal)
  | obj (fields : List (String × JsVal))

/-- JS truthiness: `false`, `0`, `NaN`, `""`, `null`, `undefined` are falsy. -/
def truthy : JsVal → Bool
  | .null => false
  | .undefVal => false
  | .bool b => b
  | .num n => n != 0
  | .nan => false
  | .str s => s != ""
  | .arr _ => true
  | .obj _ => true

/-- JS `a || b`. -/
def jsOr (a b : JsVal) : JsVal := if truthy a then a else b

/-- Nullish values `null` and `undefined` (property access on these throws). -/
def isNullish : JsVal → Bool
  | .null => true
  | .undefVal => true
  | _ => false

def isArray : JsVal → Bool
  | .arr _ => true
  | _ => false

/-- Property lookup on a non-nullish value (never throws): objects look up
    the first binding, arrays and strings expose `length`, anything else
    yields `undefined`. -/
def propOf (v : JsVal) (k : String) : JsVal :=
  match v with
  | .obj fields =>
    match fields.find? (fun p => p.fst == k) with
    | some p => p.snd
    | none => .undefVal
  | .arr xs => if k == "length" then .num xs.length else .undefVal
  | .str s => if k == "length" then .num s.length else .undefVal
  | _ => .undefVal

/-- JS property access `v.k`: throws a TypeError iff `v` is null/undefined. -/
def getProp (v : JsVal) (k : String) : Except Unit JsVal :=
  if isNullish v then .error () else .ok (propOf v k)

mutual

/-- JS string coercion `v + ""` / `String(v)`. Arrays stringify their
    elements joined by `,` with null/undefined elements becoming `""`. -/
def jsToString : JsVal → String
  | .null => "null"
  | .undefVal => "undefined"
  | .bool true => "true"
  | .bool false => "false"
  | .num n => toString n
  | .nan => "NaN"
  | .str s => s
  | .arr xs => String.intercalate "," (jsToStringElems xs)
  | .obj _ => "[object Object]"

def jsToStringElems : List JsVal → List String
  | [] => []
  | .null :: xs => "" :: jsToStringElems xs
  | .undefVal :: xs => "" :: jsToStringElems xs
  | x :: xs => jsToString x :: jsToStringElems xs

end

/-- Parse a (trimmed) decimal integer literal with optional sign, as JS
    `Number(string)` does on the integral strings covered by this model;
    anything else is NaN (`none`). -/
def strDigitsToInt (cs : List Char) : Option Int :=
  match cs with
  | [] => none
  | _ =>
    if cs.all Char.isDigit then
      some (cs.foldl (fun acc c => 10 * acc + (c.toNat - 48)) (0 : Int))
    else none

/-- ASCII whitespace (the fragment of JS `\s` / `trim()` relevant here). -/
def wsChar (c : Char) : Bool :=
  [' ', '\t', '\n', '\r', Char.ofNat 11, Char.ofNat 12].contains c

/-- JS `s.trim()`. -/
def jsTrim (s : String) : String :=
  String.mk (((s.toList.dropWhile wsChar).reverse.dropWhile wsChar).reverse)

/-- JS `s.toLowerCase()` (ASCII). -/
def lowerStr (s : String) : String :=
  String.mk (s.toList.map Char.toLower)

/-- Splitting worker for a non-empty separator, fueled by the input length. -/
def splitSeq (sep : List Char) : Nat → List Char → List (List Char)
  | _, [] => [[]]
  | 0, cs => [cs]
  | fuel + 1, c :: tl =>
    if sep.isPrefixOf (c :: tl) then
      [] :: splitSeq sep fuel ((c :: tl).drop sep.length)
    else
      match splitSeq sep fuel tl with
      | [] => [[c]]
      | hd :: rest => (c :: hd) :: rest

/-- JS `s.split(sep)` for a non-empty string separator. -/
def jsSplit (s sep : String) : List String :=
  (splitSeq sep.toList (s.length + 1) s.toList).map String.mk

def strToNumber (s : String) : Option Int :=
  let t := jsTrim s
  if t == "" then some 0
  else
    match t.toList with
    | '+' :: rest => strDigitsToInt rest
    | '-' :: rest => (strDigitsToInt rest).map Int.neg
    | cs => strDigitsToInt cs

/-- JS `Number(v)`; `none` is NaN. -/
def toNumber (v : JsVal) : Option Int :=
  match v with
  | .null => some 0
  | .undefVal => none
  | .bool true => some 1
  | .bool false => some 0
  | .num n => some n
  | .nan => none
  | .str s => strToNumber s
  | .arr xs => strToNumber (jsToString (.arr xs))
  | .obj _ => none

/-- Is `needle` a contiguous sublist of `hay`? -/
def listInfix (needle : List Char) : List Char → Bool
  | [] => needle.isEmpty
  | c :: tl => needle.isPrefixOf (c :: tl) || listInfix needle tl

/-- JS `String.prototype.includes` (substring test). -/
def substrOf (needle hay : String) : Bool :=
  listInfix needle.toList hay.toList

/-- A JS method call `v.toLowerCase()`: only strings have the method;
    calling it on anything else throws a TypeError. -/
def jsToLowerCall (v : JsVal) : Except Unit String :=
  match v with
  | .str s => .ok (lowerStr s)
  | _ => .error ()

/-! ## JSON.parse

A small JSON parser standing in for the JS builtin, over the same restricted
value domain (integer numbers, strings without `\u` escapes). `none` models a
thrown SyntaxError. -/

def jsonWs (c : Char) : Bool :=
  c.toNat == 32 || c.toNat == 9 || c.toNat == 10 || c.toNat == 13

def skipWs (cs : List Char) : List Char := cs.dropWhile jsonWs

def escTable : List (Char × Char) :=
  [('"', '"'), ('\\', '\\'), ('/', '/'), ('n', '\n'), ('t', '\t'),
   ('r', '\r'), ('b', Char.ofNat 8), ('f', Char.ofNat 12)]

def escChar (c : Char) : Option Char :=
  (escTable.find? (fun p => p.fst == c)).map Prod.snd

/-- Body of a JSON string after the opening quote; returns content and rest. -/
def parseJsonStrAux : List Char → Option (List Char × List Char)
  | [] => none
  | '"' :: rest => some ([], rest)
  | '\\' :: e :: rest =>
    match escChar e with
    | some c => (parseJsonStrAux rest).map (fun p => (c :: p.fst, p.snd))
    | none => none
  | c :: rest => (parseJsonStrAux rest).map (fun p => (c :: p.fst, p.snd))

/-- Leading decimal digits (at least one) as a number. -/
def parseDigits (cs : List Char) : Option (Int × List Char) :=
  let ds := cs.takeWhile Char.isDigit
  if ds.isEmpty then none
  else some (ds.foldl (fun acc c => 10 * acc + (c.toNat - 48)) (0 : Int),
             cs.drop ds.length)

/-- Strip a literal keyword (`null`, `true`, `false`) from the head. -/
def stripKeyword (kw cs : List Char) : Option (List Char) :=
  if kw.isPrefixOf cs then some (cs.drop kw.length) else none

mutual

def parseJsonVal : Nat → List Char → Option (JsVal × List Char)
  | 0, _ => none
  | fuel + 1, cs =>
    let t := skipWs cs
    if let some rest := stripKeyword ("null".toList) t then some (.null, rest)
    else if let some rest := stripKeyword ("true".toList) t then
      some (.bool true, rest)
    else if let some rest := stripKeyword ("false".toList) t then
      some (.bool false, rest)
    else
      match t with
      | '"' :: rest =>
        (parseJsonStrAux rest).map (fun p => (.str (String.mk p.fst), p.snd))
      | '[' :: rest =>
        (match skipWs rest with
         | ']' :: r2 => some (.arr [], r2)
         | r2 => (parseJsonElems fuel r2).map (fun p => (.arr p.fst, p.snd)))
      | '{' :: rest =>
        (match skipWs rest with
         | '}' :: r2 => some (.obj [], r2)
         | r2 => (parseJsonFields fuel r2).map (fun p => (.obj p.fst, p.snd)))
      | '-' :: rest => (parseDigits rest).map (fun p => (.num (-p.fst), p.snd))
      | cs2 => (parseDigits cs2).map (fun p => (.num p.fst, p.snd))

def parseJsonElems : Nat → List Char → Option (List JsVal × List Char)
  | 0, _ => none
  | fuel + 1, cs => do
    let (v, r) ← parseJsonVal fuel cs
    match skipWs r with
    | ',' :: r2 => (parseJsonElems fuel r2).map (fun p => (v :: p.fst, p.snd))
    | ']' :: r2 => some ([v], r2)
    | _ => none

def parseJsonFields : Nat → List Char → Option (List (String × JsVal) × List Char)
  | 0, _ => none
  | fuel + 1, cs =>
    match skipWs cs with
    | '"' :: rest => do
      let (key, r) ← parseJsonStrAux rest
      match skipWs r with
      | ':' :: r2 => do
        let (v, r3) ← parseJsonVal fuel r2
        match skipWs r3 with
        | ',' :: r4 =>
          (parseJsonFields fuel r4).map
            (fun p => ((String.mk key, v) :: p.fst, p.snd))
        | '}' :: r4 => some ([(String.mk key, v)], r4)
        | _ => none
      | _ => none
    | _ => none

end

/-- JS `JSON.parse`; `none` models a thrown SyntaxError. -/
def jsonParse (s : String) : Option JsVal :=
  match parseJsonVal (2 * s.length + 8) s.toList with
  | some (v, rest) => if (skipWs rest).isEmpty then some v else none
  | none => none

/-! ## Item normalizer — `extractItemsFromIncoming` (src/index.js lines 92-175) -/

/-- The normalized line-item shape `{ sku, name, quantity, size, technique }`. -/
structure OrderItem where
  sku : String
  name : String
  quantity : Int
  size : String
  technique : String
deriving DecidableEq, Repr

/-- Characters matched by `\s` in the display regex (ASCII fragment). -/
def isJsWs (c : Char) : Bool := wsChar c

def notCapStop (c : Char) : Bool := !(c == '\n' || c == ',' || c == ';')

/-- Backtracking for `\s*([^\n,;]+)`: consume `k` whitespace characters
    greedily, giving characters back one at a time until the capture group
    `[^\n,;]+` can match at least one character. -/
def captureFrom (rest : List Char) : Nat → Option (List Char)
  | 0 =>
    let cand := rest.takeWhile notCapStop
    if cand.isEmpty then none else some cand
  | k + 1 =>
    let cand := (rest.drop (k + 1)).takeWhile notCapStop
    if cand.isEmpty then captureFrom rest k else some cand

/-- Does the lowercase pattern `size:` match case-insensitively at the head? -/
def sizePrefixAt (cs : List Char) : Bool :=
  ((cs.take 5).map Char.toLower) == "size:".toList

/-- Left-to-right scan for the first full match of `/size:\s*([^\n,;]+)/i`,
    returning the capture group. -/
def scanSizeMatch : List Char → Option (List Char)
  | [] => none
  | c :: tl =>
    if sizePrefixAt (c :: tl) then
      let rest := (c :: tl).drop 5
      match captureFrom rest (rest.takeWhile isJsWs).length with
      | some cap => some cap
      | none => scanSizeMatch tl
    else scanSizeMatch tl

/-- JS `s.match(/size:\s*([^\n,;]+)/i)`, returning `m[1]`. -/
def matchSizeCapture (s : String) : Option String :=
  (scanSizeMatch s.toList).map String.mk

/-- One step of the `metas.forEach` loop. The mutable `size`/`technique`
    variables are threaded as a pair of raw JS values (the second branch can
    assign a non-string). Throws iff `m` is nullish, or `m.name` is a truthy
    non-string reaching the `.toLowerCase()` call of the final branch. -/
def metaStep (st : JsVal × JsVal) (m : JsVal) : Except Unit (JsVal × JsVal) := do
  let size := st.fst
  let tech := st.snd
  let mKey ← getProp m "key"
  let mName ← getProp m "name"
  let mLabel ← getProp m "label"
  let key := lowerStr (jsToString (jsOr mKey (jsOr mName (jsOr mLabel (.str "")))))
  let mValue ← getProp m "value"
  let mDispVal ← getProp m "display_value"
  let mOption ← getProp m "option"
  let val := jsToString (jsOr mValue (jsOr mDispVal (jsOr mOption (jsOr mLabel (.str "")))))
  if val == "" then pure (size, tech)
  else if substrOf "size" key || key == "pa_sizes" || key == "sizes" then
    pure (if truthy size then size else .str val, tech)
  else if substrOf "technique" key || key == "technique" then
    pure (size, if truthy tech then tech else .str val)
  else do
    -- `(m.name || "").toLowerCase()` (evaluated twice in the source with the
    -- same value and the same throw condition)
    let lowerName ← jsToLowerCall (jsOr mName (.str ""))
    let size2 :=
      if substrOf "size" lowerName && !(truthy size)
      then jsOr mOption (jsOr mValue (.str "")) else size
    let tech2 :=
      if substrOf "technique" lowerName && !(truthy tech)
      then jsOr mOption (jsOr mValue (.str "")) else tech
    pure (size2, tech2)

/-- One step of the `attrs.forEach` loop; throws iff `a` is nullish. -/
def attrStep (st : JsVal × JsVal) (a : JsVal) : Except Unit (JsVal × JsVal) := do
  let size := st.fst
  let tech := st.snd
  let aName ← getProp a "name"
  let aKey0 ← getProp a "key"
  let aKey := lowerStr (jsToString (jsOr aName (jsOr aKey0 (.str ""))))
  let aOption ← getProp a "option"
  let aValue ← getProp a "value"
  let aVal := jsToString (jsOr aOption (jsOr aValue (.str "")))
  if aVal == "" then pure (size, tech)
  else
    let size2 := if substrOf "size" aKey && !(truthy size) then .str aVal else size
    let tech2 := if substrOf "technique" aKey && !(truthy tech) then .str aVal else tech
    pure (size2, tech2)

/-- The body of the `.map((it) => ...)` over raw items. -/
def normalizeItem (it : JsVal) : Except Unit OrderItem := do
  let itName ← getProp it "name"
  let itProductName ← getProp it "product_name"
  let itTitle ← getProp it "title"
  let nameV := jsOr itName (jsOr itProductName (jsOr itTitle (.str "")))
  let itSku ← getProp it "sku"
  let itSkuId ← getProp it "sku_id"
  let itSkuId2 ← getProp it "skuId"
  let skuV := jsOr itSku (jsOr itSkuId
    (jsOr (if truthy itSkuId2 then .str (jsToString itSkuId2) else .str "") (.str "")))
  let itQuantity ← getProp it "quantity"
  let itQty ← getProp it "qty"
  let quantity := toNumber (jsOr itQuantity (jsOr itQty (.num 1)))
  let itMeta ← getProp it "meta"
  let itMetaData ← getProp it "meta_data"
  let itMetaData2 ← getProp it "metaData"
  let itMetaItems ← getProp it "meta_items"
  let metaCandidates := jsOr itMeta (jsOr itMetaData (jsOr itMetaData2 (jsOr itMetaItems (.arr []))))
  let metas := match metaCandidates with | .arr xs => xs | _ => []
  let st1 ← metas.foldlM metaStep ((.str "", .str "") : JsVal × JsVal)
  let itAttributes ← getProp it "attributes"
  let itVariation ← getProp it "variation"
  let itAttrsData ← getProp it "attributes_data"
  let attrs := jsOr itAttributes (jsOr itVariation (jsOr itAttrsData (.arr [])))
  let st2 ←
    if !(truthy st1.fst) && isArray attrs then
      (match attrs with | .arr xs => xs | _ => []).foldlM attrStep st1
    else pure st1
  let sizeF ←
    if truthy st2.fst then pure st2.fst
    else do
      let d ← getProp it "display"
      if truthy d then
        match d with
        | .str ds =>
          if substrOf "size:" (lowerStr ds) then
            match matchSizeCapture ds with
            | some cap => pure (JsVal.str (jsTrim cap))
            | none => pure st2.fst
          else pure st2.fst
        | _ => .error ()  -- `it.display.toLowerCase()` on a truthy non-string
      else pure st2.fst
  pure { sku := jsTrim (jsToString skuV)
         name := jsTrim (jsToString nameV)
         quantity := match quantity with
           | some n => if n != 0 then n else 1  -- `quantity || 1`
           | none => 1
         size := jsTrim (jsToString sizeF)
         technique := jsTrim (jsToString st2.snd) }

/-- The guarded block
    `try { if (order.items) { ... } } catch (_) { rawItems = []; }`
    resolving `order.items` (JSON string or array). -/
def itemsTryBlock (order : JsVal) : Except Unit JsVal := do
  let itemsV ← getProp order "items"
  if truthy itemsV then
    match itemsV with
    | .str s =>
      match jsonParse s with
      | some v => pure (jsOr v (.arr []))  -- `JSON.parse(order.items) || []`
      | none => pure (.arr [])             -- inner catch
    | .arr xs => pure (.arr xs)
    | _ => pure (.arr [])
  else pure (.arr [])

/-- The cascading raw-item resolution (`order.items`, `order.line_items`,
    `order.line_items_data`, `order.order.line_items`). -/
def resolveRawItems (order : JsVal) : Except Unit JsVal := do
  let r0 := match itemsTryBlock order with | .ok v => v | .error _ => .arr []
  let len0 ← getProp r0 "length"
  let r1 ←
    if truthy len0 then pure r0
    else do
      let li ← getProp order "line_items"
      pure (if isArray li then li else r0)
  let len1 ← getProp r1 "length"
  let r2 ←
    if truthy len1 then pure r1
    else do
      let li ← getProp order "line_items_data"
      pure (if isArray li then li else r1)
  let len2 ← getProp r2 "length"
  if truthy len2 then pure r2
  else
    -- `order?.order && Array.isArray(order.order.line_items)`
    let oo := if isNullish order then JsVal.undefVal else propOf order "order"
    if truthy oo then do
      let li ← getProp oo "line_items"
      pure (if isArray li then li else r2)
    else pure r2

/-- The function `extractItemsFromIncoming(order)`: resolve the raw item collection and
    map each raw item to the normalized shape. `.error ()` models an
    uncaught exception escaping the function. -/
def extractItemsFromIncoming (order : JsVal) : Except Unit (List OrderItem) := do
  let rawItems ← resolveRawItems order
  match jsOr rawItems (.arr []) with
  | .arr xs => xs.mapM normalizeItem
  | _ => .error ()  -- `(rawItems || []).map` where rawItems is truthy non-array

/-! ## Data model — `orders` rows and `paid_order_items` rows

Fields not touched by any modelled operation (billing address, phone,
`message_sent`, `supplier_sent`, `resend_qr_pending`, `tracking_sent`) are
omitted; the operations below never read or write them. String columns use
`""` for SQL null where the code treats the two alike via falsiness;
nullable columns whose null/zero distinction matters are `Option`. -/

/-- A row of the `orders` table. -/
structure Order where
  order_id : String
  status : String
  name : String
  product : String
  sku : String
  sizes : String
  technique : String
  /-- The `amount` column is nullable in the row and `0` is falsy in JS, so the two
      must stay distinguishable (`o.amount || null` conflates them). -/
  amount : Option Int
  /-- The `created_at` timestamp as epoch milliseconds (`new Date(iso).getTime()`). -/
  created_ms : Int
  next_message : Option String
  reminder_24_sent : Bool
  reminder_48_sent : Bool
  reminder_72_sent : Bool
  discounted_amount : Option Int
  paid_at : Option String
  paid_message_pending : Bool
  hidden_from_today : Bool
  /-- The serialized `items` JSON string column (`""` for null/absent). -/
  items : String
  previous_status : Option String
  previous_paid_at : Option String
  previous_amount : Option Int
  previous_next_message : Option String
  previous_reminder_24_sent : Option Bool
  previous_reminder_48_sent : Option Bool
  previous_reminder_72_sent : Option Bool
deriving DecidableEq, Repr

/-- A row of the day-bucketed `paid_order_items` ledger. -/
structure LedgerEntry where
  day : String
  order_id : String
  name : String
  amount : Int
  sku : String
  sizes : String
  technique : String
  created_at : String
deriving DecidableEq, Repr

/-- JS `x || 0` on a nullable number column. -/
def jsNumOrZero : Option Int → Int
  | none => 0
  | some n => n

/-- JS `x || null` on a number (`0` is falsy and collapses to null). -/
def jsNumOrNull : Option Int → Option Int
  | none => none
  | some n => if n = 0 then none else some n

/-- JS `x || null` on a string (`""` is falsy and collapses to null). -/
def jsStrOrNull (s : String) : Option String :=
  if s = "" then none else some s

/-- JS `x || null` on a nullable string column. -/
def jsOptStrOrNull : Option String → Option String
  | none => none
  | some s => if s = "" then none else some s

/-! ## Reminder scheduler — `/cron-check` (src/index.js lines 747-761) -/

/-- JS `hoursSince(iso) = (Date.now() - new Date(iso).getTime()) / 3600000`,
    as the exact rational `(nowMs - createdMs) / 3600000`. -/
def hoursSince (nowMs createdMs : Int) : ℚ :=
  Rat.divInt (nowMs - createdMs) 3600000

/-- The 24h patch: `{ reminder_24_sent: true, next_message: "reminder_48h" }`. -/
def patch24 (s : Order) : Order :=
  { s with reminder_24_sent := true, next_message := some "reminder_48h" }

/-- The 48h patch:
    `{ reminder_48_sent: true, discounted_amount: (o.amount || 0) - 30,
       next_message: "reminder_72h" }` (reading `amount` from the fetched
    row `o`, not the patched state). -/
def patch48 (o s : Order) : Order :=
  { s with reminder_48_sent := true
           discounted_amount := some (jsNumOrZero o.amount - 30)
           next_message := some "reminder_72h" }

/-- The 72h patch: `{ reminder_72_sent: true, status: "cancelled" }`
    (no `next_message` field in this patch). -/
def patch72 (s : Order) : Order :=
  { s with reminder_72_sent := true, status := "cancelled" }

/-- One `/cron-check` pass over a single fetched row `o`. The three `if`
    statements are independent (not `else if`): each condition reads the
    flags of the fetched row `o`, while the patches accumulate on the
    stored row. -/
def cronTickOrder (nowMs : Int) (o : Order) : Order :=
  let h := hoursSince nowMs o.created_ms
  let s := o
  let s := if !o.reminder_24_sent && decide ((24 : ℚ) ≤ h) then patch24 s else s
  let s := if !o.reminder_48_sent && decide ((48 : ℚ) ≤ h) then patch48 o s else s
  let s := if !o.reminder_72_sent && decide ((72 : ℚ) ≤ h) then patch72 s else s
  s

/-- Does the tick issue at least one PATCH request for this row? -/
def tickEligible (nowMs : Int) (o : Order) : Bool :=
  let h := hoursSince nowMs o.created_ms
  (!o.reminder_24_sent && decide ((24 : ℚ) ≤ h)) ||
  (!o.reminder_48_sent && decide ((48 : ℚ) ≤ h)) ||
  (!o.reminder_72_sent && decide ((72 : ℚ) ≤ h))

/-- The `/cron-check` loop over all fetched `pending_payment` rows.
    `fails id` says a PATCH for that order id fails (axios throws). The
    `for` body is not wrapped in its own try/catch: the first throw
    propagates to the single handler-level catch, so no later order is
    patched and the endpoint answers 500. Result: the updates that were
    applied, and whether the endpoint answered ok. -/
def cronCheckRun (fails : String → Bool) (nowMs : Int) :
    List Order → List Order × Bool
  | [] => ([], true)
  | o :: rest =>
    if tickEligible nowMs o then
      if fails o.order_id then ([], false)
      else
        let r := cronCheckRun fails nowMs rest
        (cronTickOrder nowMs o :: r.fst, r.snd)
    else cronCheckRun fails nowMs rest

/-! ## Payment finalizer — `handleMarkPaid` (src/index.js lines 284-485)

The handler's state effect: PATCH the order row to paid (step 3) and insert
one `paid_order_items` row (step 4). The WooCommerce call, the supplier
message and the list messages (steps 2, 5, 6) are best-effort external
side effects with no bearing on local state. -/

/-- Step 3 of `handleMarkPaid`: the unconditional paid PATCH body. -/
def paidPatch (now : String) (o : Order) : Order :=
  { o with status := "paid"
           paid_at := some now
           paid_message_pending := true
           reminder_24_sent := true
           reminder_48_sent := true
           reminder_72_sent := true
           next_message := none
           hidden_from_today := false }

/-- A normalized item as re-serialized for the untyped `items` variable. -/
def orderItemToJs (it : OrderItem) : JsVal :=
  .obj [("sku", .str it.sku), ("name", .str it.name),
        ("quantity", .num it.quantity), ("size", .str it.size),
        ("technique", .str it.technique)]

/-- The fetched `orders` row as the JS object handed to
    `extractItemsFromIncoming(order)`; the normalizer only reads `items`,
    `line_items`, `line_items_data` and `order`, of which the row has only
    the `items` text column (null when empty). -/
def rowToJs (o : Order) : JsVal :=
  .obj [("items", if o.items = "" then .null else .str o.items)]

/-- JS `(s + "").split(sep).map(s => s.trim()).filter(Boolean)`. -/
def splitTrimFilter (s sep : String) : List String :=
  ((jsSplit s sep).map jsTrim).filter (fun x => x ≠ "")

/-- The split-by-`|`/`,` heuristic that rebuilds items from the aggregated
    `product`/`sku`/`sizes`/`technique` display columns. -/
def heuristicItems (o : Order) : List JsVal :=
  let prods := splitTrimFilter o.product "|"
  let sks := splitTrimFilter o.sku "|"
  let sizesA := splitTrimFilter o.sizes ","
  let techsA := splitTrimFilter o.technique ","
  (List.range (max prods.length sks.length)).map (fun i =>
    JsVal.obj
      [("name", .str ((prods.get? i).getD "")),
       ("sku", .str ((sks.get? i).getD "")),
       ("quantity", .num 1),
       ("size", .str ((sizesA.get? i).getD ((sizesA.get? 0).getD ""))),
       ("technique", .str ((techsA.get? i).getD ((techsA.get? 0).getD "")))])

/-- The items-normalization block of `handleMarkPaid` (lines 342-369):
    parse the saved `items` JSON, fall back to `extractItemsFromIncoming`,
    then to the split heuristic; any escaped exception is caught, leaving
    `items = []`. -/
def storedItems (o : Order) : JsVal :=
  let inner : Except Unit JsVal := do
    let it0 ←
      if o.items ≠ "" then
        match jsonParse o.items with
        | some v => pure v  -- `items = JSON.parse(order.items)` (no `|| []` here)
        | none =>
          match extractItemsFromIncoming (rowToJs o) with
          | .ok xs => pure (JsVal.arr (xs.map orderItemToJs))
          | .error _ => .error ()
      else
        match extractItemsFromIncoming (rowToJs o) with
        | .ok xs => pure (JsVal.arr (xs.map orderItemToJs))
        | .error _ => .error ()
    let len ← getProp it0 "length"  -- throws when the parse yielded null
    if truthy len then pure it0
    else if o.product ≠ "" ∧ o.sku ≠ "" then
      match it0 with
      | .arr xs => pure (.arr (xs ++ heuristicItems o))  -- `items.push(...)`
      | _ => .error ()  -- `items.push` is not a function on non-arrays
    else pure it0
  match inner with
  | .ok v => v
  | .error _ => .arr []  -- `catch (e) { items = []; }`

/-- JS `items.map(i => i.k).filter(Boolean).join(sep)`; throws when `items`
    is not an array or an element is nullish. -/
def mapFilterJoin (items : JsVal) (k sep : String) : Except Unit String :=
  match items with
  | .arr xs => do
    let vals ← xs.mapM (fun i => getProp i k)
    pure (String.intercalate sep ((vals.filter truthy).map jsToString))
  | _ => .error ()

/-- Step 4 of `handleMarkPaid`: the `paid_order_items` row built from the
    fetched order; `none` when the insert block threw (caught and logged,
    no row inserted). -/
def buildPaidEntry (day now oid : String) (o : Order) : Option LedgerEntry :=
  let items := storedItems o
  match (do
    let skuJ ← mapFilterJoin items "sku" " | "
    let sizesJ ← mapFilterJoin items "size" ", "
    let techJ ← mapFilterJoin items "technique" ", "
    pure { day := day
           order_id := if o.order_id ≠ "" then o.order_id else oid
           name := o.name
           amount := jsNumOrZero o.amount
           sku := if skuJ ≠ "" then skuJ else o.sku
           sizes := if sizesJ ≠ "" then sizesJ else o.sizes
           technique := if techJ ≠ "" then techJ else o.technique
           created_at := now : LedgerEntry} : Except Unit LedgerEntry) with
  | .ok e => some e
  | .error _ => none

/-- The handler `handleMarkPaid` on a fetched order: apply the paid PATCH and append
    the day's ledger row (when its construction does not throw). -/
def handleMarkPaid (now day oid : String) (o : Order)
    (ledger : List LedgerEntry) : Order × List LedgerEntry :=
  let o2 := paidPatch now o
  match buildPaidEntry day now oid o with
  | some e => (o2, ledger ++ [e])
  | none => (o2, ledger)

/-! ## Snapshot manager — cancel/restore
    (`order_cancel_action` handler, src/unnamed/part_002 lines 1141-1193) -/

/-- The `full` cancel action: back up the live fields into `previous_*`
    (`|| null` collapses falsy values), then cancel the order. -/
def cancelFull (o : Order) : Order :=
  { o with status := "cancelled"
           next_message := none
           reminder_24_sent := true
           reminder_48_sent := true
           reminder_72_sent := true
           hidden_from_today := true
           previous_status := jsStrOrNull o.status
           previous_paid_at := jsOptStrOrNull o.paid_at
           previous_amount := jsNumOrNull o.amount
           previous_next_message := jsOptStrOrNull o.next_message
           -- `o.reminder_N_sent || false` is the identity on booleans
           previous_reminder_24_sent := some o.reminder_24_sent
           previous_reminder_48_sent := some o.reminder_48_sent
           previous_reminder_72_sent := some o.reminder_72_sent }

/-- The `restore` action. `none` models the
    `if (!o.previous_status) return safeSend(chatId, "No previous state found ...")`
    path: reported to the operator, no PATCH issued, the row unchanged.
    The PATCH writes each `previous_*` value back onto its live column and
    clears the snapshot. (Snapshots written by `cancelFull` always hold
    booleans in `previous_reminder_*`; the `getD false` default is
    unreachable after a cancel.) -/
def restore (o : Order) : Option Order :=
  match o.previous_status with
  | none => none
  | some ps =>
    if ps = "" then none
    else some
      { o with status := ps
               paid_at := o.previous_paid_at
               amount := o.previous_amount
               next_message := o.previous_next_message
               reminder_24_sent := o.previous_reminder_24_sent.getD false
               reminder_48_sent := o.previous_reminder_48_sent.getD false
               reminder_72_sent := o.previous_reminder_72_sent.getD false
               hidden_from_today := false
               previous_status := none
               previous_paid_at := none
               previous_amount := none
               previous_next_message := none
               previous_reminder_24_sent := none
               previous_reminder_48_sent := none
               previous_reminder_72_sent := none }

/-! ## Bulk ledger cleanup — `/delete_today_confirm`
    (src/index.js lines 707-744) -/

/-- The `orders` and `paid_order_items` tables. -/
structure Store where
  orders : List Order
  ledger : List LedgerEntry
deriving DecidableEq, Repr

/-- JS `Array.from(new Set(rows.map(r => r.order_id).filter(Boolean)))` —
    first-insertion order, duplicates dropped. -/
def affectedIds (rows : List LedgerEntry) : List String :=
  (((rows.map (fun r => r.order_id)).filter (fun s => s ≠ "")).eraseDups)

/-- The generic `PATCH /orders?order_id=eq.{id}` write primitive every
    non-delete operation goes through: update matching rows in place. -/
def patchByOrderId (orders : List Order) (oid : String) (f : Order → Order) :
    List Order :=
  orders.map (fun o => if o.order_id == oid then f o else o)

/-- The `/delete_today_confirm` command: fetch the day's ledger rows; if none, change
    nothing; otherwise DELETE the day's ledger rows, then loop over the
    distinct affected order ids deleting the matching `orders` rows. -/
def deleteTodayConfirm (dayKey : String) (st : Store) : Store :=
  let rows := st.ledger.filter (fun r => r.day == dayKey)
  if rows.isEmpty then st
  else
    let orderIds := affectedIds rows
    let ledger2 := st.ledger.filter (fun r => !(r.day == dayKey))
    let orders2 := orderIds.foldl
      (fun os oid => os.filter (fun o => !(o.order_id == oid))) st.orders
    { orders := orders2, ledger := ledger2 }

/-! ## Concrete fixtures used by witnesses and counterexamples -/

/-- A freshly created `pending_payment` order as the webhook inserts it. -/
def sampleOrder : Order :=
  { order_id := "1001"
    status := "pending_payment"
    name := "Asha"
    product := "Jersey A | Jersey B"
    sku := "VJ1 | VJ2"
    sizes := "L, M"
    technique := "emb"
    amount := some 500
    created_ms := 0
    next_message := some "reminder_24h"
    reminder_24_sent := false
    reminder_48_sent := false
    reminder_72_sent := false
    discounted_amount := none
    paid_at := none
    paid_message_pending := false
    hidden_from_today := false
    items := "[]"
    previous_status := none
    previous_paid_at := none
    previous_amount := none
    previous_next_message := none
    previous_reminder_24_sent := none
    previous_reminder_48_sent := none
    previous_reminder_72_sent := none }

/-- The same order with a zero amount (edge value of C4). -/
def sampleZero : Order := { sampleOrder with order_id := "1002", amount := some 0 }

/-- An already-cancelled order. -/
def sampleCancelled : Order :=
  { sampleOrder with order_id := "1003", status := "cancelled"
                     hidden_from_today := true }

/-- Two pending orders for the scheduler-loop claims. -/
def sampleA : Order := { sampleOrder with order_id := "A" }

def sampleB : Order := { sampleOrder with order_id := "B" }

/-- Eighty hours after `created_ms = 0`, in milliseconds. -/
def t80 : Int := 80 * 3600000

/-- Twenty-five hours after `created_ms = 0`, in milliseconds. -/
def t25 : Int := 25 * 3600000

/-- A store with one paid order and its ledger row for the day. -/
def sampleStore : Store :=
  { orders := [{ sampleOrder with status := "paid", paid_at := some "T1" }]
    ledger := [{ day := "2025-01-01", order_id := "1001", name := "Asha"
                 amount := 500, sku := "VJ1 | VJ2", sizes := "L, M"
                 technique := "emb", created_at := "T1" }] }

/-- The quantity coercion the normalizer performs, as the spec describes
    it: `Number(it.quantity || it.qty || 1)`, with a falsy result (0 or
    NaN) replaced by 1. Stated separately so the normalizer can be compared
    against it. -/
def quantityCoercion (q qty : JsVal) : Int :=
  match toNumber (jsOr q (jsOr qty (.num 1))) with
  | some n => if n != 0 then n else 1
  | none => 1

def isStr : JsVal → Bool
  | .str _ => true
  | _ => false

/-- A meta entry the `metas.forEach` body can process without throwing:
    non-nullish, and its `name` is a string whenever it is truthy (the
    fallback branch calls `.toLowerCase()` on it). -/
def wfMeta (m : JsVal) : Bool :=
  !(isNullish m) && (isStr (propOf m "name") || !(truthy (propOf m "name")))

/-- An attribute entry the `attrs.forEach` body can process: non-nullish. -/
def wfAttr (a : JsVal) : Bool := !(isNullish a)

/-- A raw item the normalizer can process without throwing: a non-nullish
    value whose meta entries and attribute entries are well-formed and
    whose `display`, when truthy, is a string. -/
def wfItem (it : JsVal) : Bool :=
  !(isNullish it) &&
  (match jsOr (propOf it "meta") (jsOr (propOf it "meta_data")
      (jsOr (propOf it "metaData") (jsOr (propOf it "meta_items") (.arr [])))) with
   | .arr xs => xs.all wfMeta
   | _ => true) &&
  (match jsOr (propOf it "attributes") (jsOr (propOf it "variation")
      (jsOr (propOf it "attributes_data") (.arr []))) with
   | .arr xs => xs.all wfAttr
   | _ => true) &&
  (isStr (propOf it "display") || !(truthy (propOf it "display")))

/-- A payload whose resolved raw item collection is an array of
    well-formed items. -/
def wfPayload (order : JsVal) : Bool :=
  match resolveRawItems order with
  | .ok v =>
    match jsOr v (.arr []) with
    | .arr xs => xs.all wfItem
    | _ => false
  | .error _ => false

/-- A raw item carrying no size/technique/quantity data at all: every
    field the normalizer consults for those values is falsy. -/
def bareItem (it : JsVal) : Bool :=
  !(isNullish it) &&
  !(truthy (propOf it "quantity")) && !(truthy (propOf it "qty")) &&
  !(truthy (propOf it "meta")) && !(truthy (propOf it "meta_data")) &&
  !(truthy (propOf it "metaData")) && !(truthy (propOf it "meta_items")) &&
  !(truthy (propOf it "attributes")) && !(truthy (propOf it "variation")) &&
  !(truthy (propOf it "attributes_data")) && !(truthy (propOf it "display"))

/-- A realistic well-formed webhook payload. -/
def samplePayload : JsVal :=
  .obj [("line_items", .arr
    [.obj [("name", .str "Jersey"), ("sku", .str "VJ1"),
           ("quantity", .num 2),
           ("meta", .arr [.obj [("key", .str "pa_sizes"),
                                ("value", .str "L")]])],
     .obj [("name", .str "Cap"), ("sku", .str "VJ2"),
           ("attributes", .arr [.obj [("name", .str "Technique"),
                                      ("option", .str "emb")]])]])]

/-- A raw item with a sku but no size/technique/quantity data. -/
def sampleBare : JsVal := .obj [("sku", .str "VJ9")]

/-! ## Helper lemmas -/

theorem handleMarkPaid_fst (now day oid : String) (o : Order)
    (l : List LedgerEntry) :
    (handleMarkPaid now day oid o l).fst = paidPatch now o := by
  unfold handleMarkPaid
  cases h : buildPaidEntry day now oid o <;> simp [h]

theorem handleMarkPaid_snd (now day oid : String) (o : Order)
    (l : List LedgerEntry) :
    (handleMarkPaid now day oid o l).snd
      = l ++ (buildPaidEntry day now oid o).toList := by
  unfold handleMarkPaid
  cases h : buildPaidEntry day now oid o <;> simp [h]

theorem paidPatch_idem (now : String) (o : Order) :
    paidPatch now (paidPatch now o) = paidPatch now o := by
  cases o; rfl

theorem buildPaidEntry_paidPatch (day now oid t : String) (o : Order) :
    buildPaidEntry day now oid (paidPatch t o) = buildPaidEntry day now oid o := by
  cases o; rfl

/-! ## Claim C1 — single-step ticks -/

/-- C1 counterexample: an order 80 hours old with no reminder flags set.
    The claim says one `/cron-check` pass applies only the 24h step; the
    code's three `if` statements are independent, so one pass sets the 48h
    and 72h flags too and cancels the order. -/
theorem cron_tick_fires_multiple_steps_cex :
    sampleOrder.reminder_24_sent = false ∧
    sampleOrder.reminder_48_sent = false ∧
    sampleOrder.reminder_72_sent = false ∧
    (72 : ℚ) ≤ hoursSince t80 sampleOrder.created_ms ∧
    (cronTickOrder t80 sampleOrder).reminder_48_sent = true ∧
    (cronTickOrder t80 sampleOrder).reminder_72_sent = true ∧
    (cronTickOrder t80 sampleOrder).status = "cancelled" := by
  decide

/-- C1 (amended): the thresholds are checked independently in ascending
    order within one pass; every crossed, unsatisfied threshold fires. An
    order at least 72 hours old with no flags set receives all three steps
    in a single pass: all flags true, `discounted_amount = amount - 30`,
    `status = "cancelled"`, and `next_message = "reminder_72h"` (the 72h
    patch does not write `next_message`). -/
theorem cron_tick_applies_every_crossed_threshold (nowMs : Int) (o : Order)
    (h24f : o.reminder_24_sent = false) (h48f : o.reminder_48_sent = false)
    (h72f : o.reminder_72_sent = false)
    (h72 : (72 : ℚ) ≤ hoursSince nowMs o.created_ms) :
    cronTickOrder nowMs o =
      { o with reminder_24_sent := true
               reminder_48_sent := true
               reminder_72_sent := true
               discounted_amount := some (jsNumOrZero o.amount - 30)
               next_message := some "reminder_72h"
               status := "cancelled" } := by
  have h48 : (48 : ℚ) ≤ hoursSince nowMs o.created_ms :=
    le_trans (by norm_num) h72
  have h24 : (24 : ℚ) ≤ hoursSince nowMs o.created_ms :=
    le_trans (by norm_num) h72
  cases o
  simp_all [cronTickOrder, patch24, patch48, patch72,
    decide_eq_true h24, decide_eq_true h48, decide_eq_true h72]

/-- Witness for C1 (amended) at the 80-hour fixture. -/
theorem cron_tick_applies_every_crossed_threshold_witness :
    (sampleOrder.reminder_24_sent = false ∧ sampleOrder.reminder_48_sent = false ∧
     sampleOrder.reminder_72_sent = false ∧
     (72 : ℚ) ≤ hoursSince t80 sampleOrder.created_ms) ∧
    cronTickOrder t80 sampleOrder =
      { sampleOrder with
          reminder_24_sent := true
          reminder_48_sent := true
          reminder_72_sent := true
          discounted_amount := some (jsNumOrZero sampleOrder.amount - 30)
          next_message := some "reminder_72h"
          status := "cancelled" } :=
  ⟨⟨by decide, by decide, by decide, by decide⟩,
   cron_tick_applies_every_crossed_threshold t80 sampleOrder
     (by decide) (by decide) (by decide) (by decide)⟩

/-! ## Claim C8 — restore with no snapshot -/

/-- C8: when `previous_status` is null, `restore` reports "No previous
    state found" and issues no PATCH: the row is unchanged (`none` result =
    reported no-op). -/
theorem restore_without_snapshot_noop (o : Order)
    (h : o.previous_status = none) : restore o = none := by
  simp [restore, h]

/-- Witness for C8 at the fresh fixture. -/
theorem restore_without_snapshot_noop_witness :
    sampleOrder.previous_status = none ∧ restore sampleOrder = none :=
  ⟨rfl, restore_without_snapshot_noop sampleOrder rfl⟩

/-! ## Claim C10 — markPaid clears the hidden-from-today flag -/

/-- C10: every application of the paid patch writes
    `hidden_from_today: false`, so an order hidden by the hide-only cancel
    action reappears in current-day views once marked paid. -/
theorem markPaid_clears_hidden_flag (now day oid : String) (o : Order)
    (l : List LedgerEntry) :
    (handleMarkPaid now day oid o l).fst.hidden_from_today = false := by
  simp [handleMarkPaid_fst, paidPatch]

/-! ## Claim C3 — markPaid only valid from pending_payment -/

/-- C3 counterexample: `handleMarkPaid` never checks the fetched status;
    an already-cancelled order is marked paid all the same, so the claim's
    "for an order in any other status the paid transition is not applied"
    is false. -/
theorem markPaid_ignores_status_cex :
    sampleCancelled.status = "cancelled" ∧
    (handleMarkPaid "T1" "D" "1003" sampleCancelled []).fst.status = "paid" := by
  constructor
  · rfl
  · rw [handleMarkPaid_fst]; rfl

/-- C3 (amended): the paid PATCH is unconditional — for an order in any
    current status it sets `status=paid`, `paid_at=now`,
    `paid_message_pending=true`, all three reminder flags, and clears
    `next_message`; no `pending_payment` precondition exists. -/
theorem markPaid_unconditional_paid_patch (now day oid : String) (o : Order)
    (l : List LedgerEntry) :
    (handleMarkPaid now day oid o l).fst.status = "paid" ∧
    (handleMarkPaid now day oid o l).fst.paid_at = some now ∧
    (handleMarkPaid now day oid o l).fst.paid_message_pending = true ∧
    (handleMarkPaid now day oid o l).fst.reminder_24_sent = true ∧
    (handleMarkPaid now day oid o l).fst.reminder_48_sent = true ∧
    (handleMarkPaid now day oid o l).fst.reminder_72_sent = true ∧
    (handleMarkPaid now day oid o l).fst.next_message = none := by
  simp [handleMarkPaid_fst, paidPatch]

/-! ## Claim C2 — idempotence of markPaid -/

/-- C2 counterexample: two `handleMarkPaid` calls on the same order (same
    timestamp, same day) do not produce the state of one call — the second
    call appends a second `paid_order_items` row, so the per-day ledger
    differs (two entries instead of one). -/
theorem markPaid_twice_duplicates_ledger_cex :
    ¬ (handleMarkPaid "T1" "D" "1001"
         (handleMarkPaid "T1" "D" "1001" sampleOrder []).fst
         (handleMarkPaid "T1" "D" "1001" sampleOrder []).snd
       = handleMarkPaid "T1" "D" "1001" sampleOrder []) ∧
    (handleMarkPaid "T1" "D" "1001"
       (handleMarkPaid "T1" "D" "1001" sampleOrder []).fst
       (handleMarkPaid "T1" "D" "1001" sampleOrder []).snd).snd.length = 2 ∧
    (handleMarkPaid "T1" "D" "1001" sampleOrder []).snd.length = 1 := by
  refine ⟨fun h => ?_, by decide, by decide⟩
  have := congrArg (fun p => p.snd.length) h
  simp only at this
  revert this
  decide

/-- C2 (amended): `handleMarkPaid` is idempotent on the order record —
    re-applying it (same timestamp) re-applies the same fields — but not on
    the per-day ledger: each call appends the same `paid_order_items` row
    again, so the ledger after two calls has one more entry than after one. -/
theorem markPaid_idempotent_on_order_but_appends_ledger
    (now day oid : String) (o : Order) (ledger : List LedgerEntry) :
    (handleMarkPaid now day oid
       (handleMarkPaid now day oid o ledger).fst
       (handleMarkPaid now day oid o ledger).snd).fst
      = (handleMarkPaid now day oid o ledger).fst ∧
    (handleMarkPaid now day oid
       (handleMarkPaid now day oid o ledger).fst
       (handleMarkPaid now day oid o ledger).snd).snd
      = (handleMarkPaid now day oid o ledger).snd
          ++ (buildPaidEntry day now oid o).toList := by
  constructor
  · simp [handleMarkPaid_fst, paidPatch_idem]
  · simp [handleMarkPaid_snd, handleMarkPaid_fst, buildPaidEntry_paidPatch]

/-! ## Claim C5 — partial batch failure containment -/

/-- C5 counterexample: order "A" and order "B" are both 25 hours old and
    both due the 24h step. With the PATCH for "A" failing, the scheduler
    pass ends with no updates applied and the endpoint failing: order "B"
    — although eligible — is not processed, because the loop body has no
    per-order error handling. -/
theorem cron_one_failure_skips_rest_cex :
    tickEligible t25 sampleB = true ∧
    cronCheckRun (fun id => id == "A") t25 [sampleA, sampleB] = ([], false) := by
  decide

/-- C5 (amended): one failing order update aborts the whole scheduler pass
    — the throw escapes the `for` loop to the single handler-level catch,
    so every remaining order is left unprocessed and the endpoint reports
    an error, rather than the failure being contained per order. -/
theorem cron_failure_aborts_rest (fails : String → Bool) (nowMs : Int)
    (o : Order) (rest : List Order)
    (he : tickEligible nowMs o = true) (hf : fails o.order_id = true) :
    cronCheckRun fails nowMs (o :: rest) = ([], false) := by
  simp [cronCheckRun, he, hf]

/-- Witness for C5 (amended) at the two-order fixture. -/
theorem cron_failure_aborts_rest_witness :
    (tickEligible t25 sampleA = true ∧ (fun id => id == "A") sampleA.order_id = true) ∧
    cronCheckRun (fun id => id == "A") t25 [sampleA, sampleB] = ([], false) :=
  ⟨⟨by decide, by decide⟩,
   cron_failure_aborts_rest (fun id => id == "A") t25 sampleA [sampleB]
     (by decide) (by decide)⟩

/-! ## Claim C4 — snapshot round-trip -/

/-- C4 counterexample: an order with `amount = 0`. The backup writes
    `previous_amount: o.amount || null`, and `0` is falsy in JS, so the
    snapshot stores null and the restore writes `amount = null` instead of
    the original `0` — the tuple is not reproduced exactly. -/
theorem snapshot_roundtrip_zero_amount_cex :
    sampleZero.amount = some 0 ∧
    (restore (cancelFull sampleZero)).map Order.amount = some none := by
  decide

/-- C4 (amended): `restore(cancelFull(order))` reproduces the original
    `{status, paid_at, amount, next_message, reminder_*}` tuple exactly and
    clears every `previous_*` field to null, provided none of the backed-up
    values is a falsy non-null (`amount ≠ 0`, and no empty-string
    status/paid_at/next_message) — `|| null` in the backup collapses those
    to null, so the `amount = 0` edge value comes back as null. -/
theorem snapshot_roundtrip_exact (o : Order)
    (hs : o.status ≠ "") (hp : o.paid_at ≠ some "")
    (hn : o.next_message ≠ some "") (ha : o.amount ≠ some 0) :
    restore (cancelFull o) =
      some { o with hidden_from_today := false
                    previous_status := none
                    previous_paid_at := none
                    previous_amount := none
                    previous_next_message := none
                    previous_reminder_24_sent := none
                    previous_reminder_48_sent := none
                    previous_reminder_72_sent := none } := by
  have hpa : jsOptStrOrNull o.paid_at = o.paid_at := by
    match h : o.paid_at with
    | none => rfl
    | some s =>
      have hne : s ≠ "" := fun he => hp (by rw [h, he])
      simp [jsOptStrOrNull, hne]
  have hnm : jsOptStrOrNull o.next_message = o.next_message := by
    match h : o.next_message with
    | none => rfl
    | some s =>
      have hne : s ≠ "" := fun he => hn (by rw [h, he])
      simp [jsOptStrOrNull, hne]
  have ham : jsNumOrNull o.amount = o.amount := by
    match h : o.amount with
    | none => rfl
    | some n =>
      have hne : n ≠ 0 := fun he => ha (by rw [h, he])
      simp [jsNumOrNull, hne]
  have hss : jsStrOrNull o.status = some o.status := by
    simp [jsStrOrNull, hs]
  cases o
  simp_all [cancelFull, restore]

/-- Witness for C4 (amended) at the standard fixture. -/
theorem snapshot_roundtrip_exact_witness :
    (sampleOrder.status ≠ "" ∧ sampleOrder.paid_at ≠ some "" ∧
     sampleOrder.next_message ≠ some "" ∧ sampleOrder.amount ≠ some 0) ∧
    restore (cancelFull sampleOrder) =
      some { sampleOrder with
               hidden_from_today := false
               previous_status := none
               previous_paid_at := none
               previous_amount := none
               previous_next_message := none
               previous_reminder_24_sent := none
               previous_reminder_48_sent := none
               previous_reminder_72_sent := none } :=
  ⟨⟨by decide, by decide, by decide, by decide⟩,
   snapshot_roundtrip_exact sampleOrder
     (by decide) (by decide) (by decide) (by decide)⟩

/-! ## Claim C9 — deletion discipline -/

/-- C9 counterexample: the bulk cleanup DELETEs the matching `orders` rows
    outright — afterwards the store holds no trace of the order and no row
    whose status is "deleted", contradicting "marks each affected order
    with status deleted". -/
theorem cleanup_removes_rows_cex :
    deleteTodayConfirm "2025-01-01" sampleStore = { orders := [], ledger := [] } ∧
    (sampleStore.orders.map Order.status) = ["paid"] ∧
    ((deleteTodayConfirm "2025-01-01" sampleStore).orders.filter
       (fun o => o.status == "deleted")) = [] := by
  decide

/-- The per-id delete loop equals one filter over membership in the id list. -/
theorem foldl_delete_eq_filter (ids : List String) (os : List Order) :
    ids.foldl (fun os oid => os.filter (fun o => !(o.order_id == oid))) os
      = os.filter (fun o => !(ids.contains o.order_id)) := by
  induction ids generalizing os with
  | nil => simp
  | cons i tl ih =>
    simp only [List.foldl_cons, ih, List.filter_filter, List.contains_cons]
    congr 1
    funext o
    cases h : o.order_id == i <;> cases hc : tl.contains o.order_id <;>
      simp [h, hc]

/-- C9 (amended): orders are removed only by the bulk ledger cleanup, and
    that cleanup deletes — it does not mark: the surviving `orders` rows are
    exactly the original rows whose id is not among the day's ledger ids
    (each kept row unmodified, so no "deleted" status is ever written), the
    day's ledger rows are dropped, and the PATCH-by-id primitive used by
    every other operation can never change the set of order ids as long as
    the patch body leaves `order_id` alone. -/
theorem cleanup_filters_orders_and_patches_preserve_ids
    (dayKey : String) (st : Store) (oid : String) (f : Order → Order)
    (hf : ∀ o, (f o).order_id = o.order_id) :
    (deleteTodayConfirm dayKey st).orders
      = st.orders.filter (fun o =>
          !((affectedIds (st.ledger.filter (fun r => r.day == dayKey))).contains
              o.order_id)) ∧
    (deleteTodayConfirm dayKey st).ledger
      = st.ledger.filter (fun r => !(r.day == dayKey)) ∧
    (patchByOrderId st.orders oid f).map Order.order_id
      = st.orders.map Order.order_id := by
  refine ⟨?_, ?_, ?_⟩
  · unfold deleteTodayConfirm
    by_cases hrows : (st.ledger.filter (fun r => r.day == dayKey)).isEmpty
    · simp only [hrows, if_true]
      have : affectedIds (st.ledger.filter (fun r => r.day == dayKey)) = [] := by
        rw [List.isEmpty_iff] at hrows
        rw [affectedIds, hrows]
        rfl
      rw [this]
      simp
    · simp only [hrows, if_false]
      exact foldl_delete_eq_filter _ _
  · unfold deleteTodayConfirm
    by_cases hrows : (st.ledger.filter (fun r => r.day == dayKey)).isEmpty
    · simp only [hrows, if_true]
      rw [List.isEmpty_iff, List.filter_eq_nil_iff] at hrows
      symm
      rw [List.filter_eq_self]
      intro r hr
      simp [hrows r hr]
    · simp [hrows]
  · simp only [patchByOrderId, List.map_map]
    apply List.map_congr_left
    intro o _
    simp only [Function.comp_apply]
    split <;> simp [hf]

/-- Witness for C9 (amended) at the one-order store, patching with the paid
    patch (which never touches `order_id`). -/
theorem cleanup_filters_orders_witness :
    (∀ o : Order, (paidPatch "T2" o).order_id = o.order_id) ∧
    ((deleteTodayConfirm "2025-01-01" sampleStore).orders
       = sampleStore.orders.filter (fun o =>
           !((affectedIds (sampleStore.ledger.filter
               (fun r => r.day == "2025-01-01"))).contains o.order_id)) ∧
     (deleteTodayConfirm "2025-01-01" sampleStore).ledger
       = sampleStore.ledger.filter (fun r => !(r.day == "2025-01-01")) ∧
     (patchByOrderId sampleStore.orders "1001" (paidPatch "T2")).map Order.order_id
       = sampleStore.orders.map Order.order_id) :=
  ⟨fun _ => rfl,
   cleanup_filters_orders_and_patches_preserve_ids "2025-01-01" sampleStore
     "1001" (paidPatch "T2") (fun _ => rfl)⟩

/-! ## Claim C7 — quantity coercion -/

/-- Inversion for a successful `Except` bind. -/
theorem exceptBind_eq_ok {α β : Type} {m : Except Unit α} {g : α → Except Unit β}
    {res : β} (h : (m >>= g) = .ok res) : ∃ v, m = .ok v ∧ g v = .ok res := by
  cases hm : m with
  | ok v =>
    rw [hm] at h
    exact ⟨v, rfl, h⟩
  | error e =>
    rw [hm] at h
    simp [Bind.bind, Except.bind] at h

/-- C7 counterexample: a raw item with `quantity: -2`. `-2` is truthy and a
    valid number, so both `Number(...)` and the `quantity || 1` guard pass
    it through: the normalized quantity is `-2 < 1`, refuting "no
    normalized item ever carries a quantity below 1". -/
theorem negative_quantity_passes_through_cex :
    normalizeItem (JsVal.obj [("quantity", JsVal.num (-2))]) =
      .ok { sku := "", name := "", quantity := -2, size := "", technique := "" } ∧
    ¬ (1 ≤ (-2 : Int)) := by
  exact ⟨rfl, by decide⟩

/-- C7 (amended): whenever normalization of a raw item succeeds, its
    quantity is exactly `Number(it.quantity || it.qty || 1)` with a falsy
    result (0 or NaN) replaced by 1 — so missing, zero or non-numeric input
    yields 1, but any other numeric value, including negatives below 1, is
    passed through unchanged. -/
theorem quantity_coercion_spec (it : JsVal) (item : OrderItem)
    (h : normalizeItem it = .ok item) :
    item.quantity = quantityCoercion (propOf it "quantity") (propOf it "qty") := by
  unfold normalizeItem at h
  obtain ⟨v1, hv1, h⟩ := exceptBind_eq_ok h
  obtain ⟨v2, hv2, h⟩ := exceptBind_eq_ok h
  obtain ⟨v3, hv3, h⟩ := exceptBind_eq_ok h
  obtain ⟨v4, hv4, h⟩ := exceptBind_eq_ok h
  obtain ⟨v5, hv5, h⟩ := exceptBind_eq_ok h
  obtain ⟨v6, hv6, h⟩ := exceptBind_eq_ok h
  obtain ⟨vQ, hvQ, h⟩ := exceptBind_eq_ok h
  obtain ⟨vQty, hvQty, h⟩ := exceptBind_eq_ok h
  rw [getProp] at hvQ
  split at hvQ
  · exact absurd hvQ (by simp)
  rw [getProp] at hvQty
  split at hvQty
  · exact absurd hvQty (by simp)
  injection hvQ with hvQ
  injection hvQty with hvQty
  subst hvQ
  subst hvQty
  obtain ⟨m1, hm1, h⟩ := exceptBind_eq_ok h
  obtain ⟨m2, hm2, h⟩ := exceptBind_eq_ok h
  obtain ⟨m3, hm3, h⟩ := exceptBind_eq_ok h
  obtain ⟨m4, hm4, h⟩ := exceptBind_eq_ok h
  obtain ⟨st1, hst1, h⟩ := exceptBind_eq_ok h
  obtain ⟨a1, ha1, h⟩ := exceptBind_eq_ok h
  obtain ⟨a2, ha2, h⟩ := exceptBind_eq_ok h
  obtain ⟨a3, ha3, h⟩ := exceptBind_eq_ok h
  clear hv1 hv2 hv3 hv4 hv5 hv6 hm1 hm2 hm3 hm4 ha1 ha2 ha3
  repeat'
    first
    | (subst h; simp [quantityCoercion, *])
    | (obtain ⟨_, -, h⟩ := exceptBind_eq_ok h)
    | (split at h)
    | (simp only [Bind.bind, Except.bind, pure, Except.pure, Except.ok.injEq,
        reduceCtorEq] at h)

/-- Witness for C7 (amended): a raw item whose only quantity source is
    `qty: 3`. -/
theorem quantity_coercion_spec_witness :
    normalizeItem (JsVal.obj [("qty", JsVal.num 3)]) =
      .ok { sku := "", name := "", quantity := 3, size := "", technique := "" } ∧
    ({ sku := "", name := "", quantity := 3, size := "", technique := "" }
        : OrderItem).quantity
      = quantityCoercion (propOf (JsVal.obj [("qty", JsVal.num 3)]) "quantity")
          (propOf (JsVal.obj [("qty", JsVal.num 3)]) "qty") :=
  ⟨rfl, quantity_coercion_spec (JsVal.obj [("qty", JsVal.num 3)])
    { sku := "", name := "", quantity := 3, size := "", technique := "" } rfl⟩

/-! ## Claim C6 — normalizer totality -/

theorem jsOr_of_falsy {a b : JsVal} (h : truthy a = false) : jsOr a b = b := by
  simp [jsOr, h]

theorem metaStep_ok (st : JsVal × JsVal) (m : JsVal) (hm : wfMeta m = true) :
    (metaStep st m).isOk = true := by
  simp only [wfMeta, Bool.and_eq_true, Bool.or_eq_true, Bool.not_eq_true'] at hm
  obtain ⟨hnull, hname⟩ := hm
  unfold metaStep
  simp only [getProp, hnull, Bool.false_eq_true, if_false, Bind.bind, Except.bind]
  split
  · rfl
  split
  · rfl
  split
  · rfl
  by_cases ht : truthy (propOf m "name") = true
  · rcases hname with hstr | hfalsy
    · cases hp : propOf m "name" <;> rw [hp] at hstr ht <;>
        simp [isStr] at hstr <;> simp [jsOr, ht, jsToLowerCall, Except.isOk, Except.toBool, pure, Except.pure]
    · rw [hfalsy] at ht; exact absurd ht (by simp)
  · rw [Bool.not_eq_true] at ht
    simp [jsOr_of_falsy ht, jsToLowerCall, Except.isOk, Except.toBool, pure, Except.pure]

theorem attrStep_ok (st : JsVal × JsVal) (a : JsVal) (ha : wfAttr a = true) :
    (attrStep st a).isOk = true := by
  simp only [wfAttr, Bool.not_eq_true'] at ha
  unfold attrStep
  simp only [getProp, ha, Bool.false_eq_true, if_false, Bind.bind, Except.bind]
  split
  · rfl
  · rfl

theorem foldlM_steps_ok {σ : Type} (f : σ → JsVal → Except Unit σ)
    (p : JsVal → Bool) (hf : ∀ st m, p m = true → (f st m).isOk = true) :
    ∀ (xs : List JsVal) (st : σ), xs.all p = true →
      (xs.foldlM f st).isOk = true := by
  intro xs
  induction xs with
  | nil => intro st _; rfl
  | cons m tl ih =>
    intro st hall
    simp only [List.all_cons, Bool.and_eq_true] at hall
    obtain ⟨hm, htl⟩ := hall
    have h1 := hf st m hm
    simp only [List.foldlM]
    cases he : f st m with
    | error e => rw [he] at h1; exact absurd h1 (by simp [Except.isOk, Except.toBool])
    | ok st1 => simpa [he, Bind.bind, Except.bind] using ih st1 htl

theorem normalizeItem_ok (it : JsVal) (hw : wfItem it = true) :
    (normalizeItem it).isOk = true := by
  simp only [wfItem, Bool.and_eq_true, Bool.or_eq_true, Bool.not_eq_true'] at hw
  obtain ⟨⟨⟨hnull, hmetas⟩, hattrs⟩, hdisp⟩ := hw
  unfold normalizeItem
  simp only [getProp, hnull, Bool.false_eq_true, if_false, Bind.bind, Except.bind]
  have hmAll : (match jsOr (propOf it "meta") (jsOr (propOf it "meta_data")
      (jsOr (propOf it "metaData") (jsOr (propOf it "meta_items")
        (JsVal.arr [])))) with
      | JsVal.arr xs => xs
      | _ => ([] : List JsVal)).all wfMeta = true := by
    revert hmetas
    cases jsOr (propOf it "meta") (jsOr (propOf it "meta_data")
      (jsOr (propOf it "metaData") (jsOr (propOf it "meta_items")
        (JsVal.arr [])))) <;> simp
  have hst1 := foldlM_steps_ok metaStep wfMeta metaStep_ok _
    (JsVal.str "", JsVal.str "") hmAll
  cases hfold : List.foldlM metaStep (JsVal.str "", JsVal.str "")
      (match jsOr (propOf it "meta") (jsOr (propOf it "meta_data")
        (jsOr (propOf it "metaData") (jsOr (propOf it "meta_items")
          (JsVal.arr [])))) with
      | JsVal.arr xs => xs
      | _ => ([] : List JsVal)) with
  | error e => rw [hfold] at hst1; exact absurd hst1 (by simp [Except.isOk, Except.toBool])
  | ok st1 =>
    have haAll : (match jsOr (propOf it "attributes") (jsOr (propOf it "variation")
        (jsOr (propOf it "attributes_data") (JsVal.arr []))) with
        | JsVal.arr xs => xs
        | _ => ([] : List JsVal)).all wfAttr = true := by
      revert hattrs
      cases jsOr (propOf it "attributes") (jsOr (propOf it "variation")
        (jsOr (propOf it "attributes_data") (JsVal.arr []))) <;> simp
    simp only []
    split
    · have hst2 := foldlM_steps_ok attrStep wfAttr attrStep_ok _ st1 haAll
      cases hfold2 : List.foldlM attrStep st1
          (match jsOr (propOf it "attributes") (jsOr (propOf it "variation")
            (jsOr (propOf it "attributes_data") (JsVal.arr []))) with
          | JsVal.arr xs => xs
          | _ => ([] : List JsVal)) with
      | error e =>
        rw [hfold2] at hst2
        exact absurd hst2 (by simp [Except.isOk, Except.toBool])
      | ok st2 =>
        simp only []
        split
        · rfl
        · by_cases htd : truthy (propOf it "display") = true
          · rcases hdisp with hstr | hfalsy
            · cases hp : propOf it "display" <;> rw [hp] at hstr htd <;>
                first
                | (simp [isStr] at hstr
                   done)
                | (simp [htd]
                   try (split <;> first | rfl | (split <;> rfl)))
            · rw [hfalsy] at htd; exact absurd htd (by simp)
          · rw [Bool.not_eq_true] at htd
            simp only [htd, Bool.false_eq_true, if_false]
            rfl
    · simp only [pure, Except.pure]
      split
      · rfl
      · by_cases htd : truthy (propOf it "display") = true
        · rcases hdisp with hstr | hfalsy
          · cases hp : propOf it "display" <;> rw [hp] at hstr htd <;>
              first
              | (simp [isStr] at hstr
                 done)
              | (simp [htd]
                 try (split <;> first | rfl | (split <;> rfl)))
          · rw [hfalsy] at htd; exact absurd htd (by simp)
        · rw [Bool.not_eq_true] at htd
          simp only [htd, Bool.false_eq_true, if_false]
          rfl

theorem mapM_normalizeItem_ok (xs : List JsVal) (h : xs.all wfItem = true) :
    (xs.mapM normalizeItem).isOk = true := by
  induction xs with
  | nil => rfl
  | cons a as ih =>
    simp only [List.all_cons, Bool.and_eq_true] at h
    obtain ⟨ha, has⟩ := h
    rw [List.mapM_cons]
    have h1 := normalizeItem_ok a ha
    cases he : normalizeItem a with
    | error e => rw [he] at h1; exact absurd h1 (by simp [Except.isOk, Except.toBool])
    | ok b =>
      have h2 := ih has
      cases he2 : as.mapM normalizeItem with
      | error e => rw [he2] at h2; exact absurd h2 (by simp [Except.isOk, Except.toBool])
      | ok bs => simp [he, he2, Bind.bind, Except.bind, Except.isOk, Except.toBool,
          pure, Except.pure]

/-- C6 counterexample: a payload whose `items` array contains `null`. The
    map body's first property access `it.name` throws a TypeError on the
    null element, so the normalizer raises instead of returning a default
    item — "normalization never raises" is false for this payload. -/
theorem normalizer_total_cex :
    extractItemsFromIncoming (JsVal.obj [("items", JsVal.arr [JsVal.null])])
      = .error () := by
  rfl

/-- C6 (amended): the normalizer is total on payloads whose resolved raw
    item collection is an array of well-formed items (non-nullish entries,
    meta entries whose truthy `name` is a string, non-nullish attribute
    entries, string-or-absent `display`); and for any well-formed raw item
    carrying no size/technique/quantity data it returns an item with
    `quantity = 1`, `size = ""`, `technique = ""`. It is not total on
    arbitrary payloads: a nullish array element or a truthy non-string
    `display` makes it throw. -/
theorem normalizer_total_on_wellformed :
    (∀ order : JsVal, wfPayload order = true →
       (extractItemsFromIncoming order).isOk = true) ∧
    (∀ it : JsVal, bareItem it = true →
       ∃ item, normalizeItem it = .ok item ∧
         item.quantity = 1 ∧ item.size = "" ∧ item.technique = "") := by
  constructor
  · intro order hw
    unfold wfPayload at hw
    cases hr : resolveRawItems order with
    | error e => rw [hr] at hw; exact absurd hw (by simp)
    | ok v =>
      rw [hr] at hw
      simp only [] at hw
      unfold extractItemsFromIncoming
      rw [hr]
      simp only [Bind.bind, Except.bind]
      cases hv : jsOr v (JsVal.arr []) with
      | arr xs =>
        rw [hv] at hw
        exact mapM_normalizeItem_ok xs hw
      | null => rw [hv] at hw; exact absurd hw (by simp)
      | undefVal => rw [hv] at hw; exact absurd hw (by simp)
      | bool b => rw [hv] at hw; exact absurd hw (by simp)
      | num n => rw [hv] at hw; exact absurd hw (by simp)
      | nan => rw [hv] at hw; exact absurd hw (by simp)
      | str s => rw [hv] at hw; exact absurd hw (by simp)
      | obj fields => rw [hv] at hw; exact absurd hw (by simp)
  · intro it hb
    simp only [bareItem, Bool.and_eq_true, Bool.not_eq_true'] at hb
    obtain ⟨⟨⟨⟨⟨⟨⟨⟨⟨⟨hnull, hq⟩, hqty⟩, hm1⟩, hm2⟩, hm3⟩, hm4⟩, ha1⟩, ha2⟩, ha3⟩, hd⟩ := hb
    have heq : normalizeItem it = .ok
        { sku := jsTrim (jsToString (jsOr (propOf it "sku") (jsOr (propOf it "sku_id")
            (jsOr (if truthy (propOf it "skuId") = true
                   then JsVal.str (jsToString (propOf it "skuId"))
                   else JsVal.str "") (JsVal.str "")))))
          name := jsTrim (jsToString (jsOr (propOf it "name")
            (jsOr (propOf it "product_name")
              (jsOr (propOf it "title") (JsVal.str "")))))
          quantity := 1
          size := ""
          technique := "" } := by
      unfold normalizeItem
      simp only [getProp, hnull, Bool.false_eq_true, if_false, Bind.bind, Except.bind,
        jsOr_of_falsy hq, jsOr_of_falsy hqty, jsOr_of_falsy hm1, jsOr_of_falsy hm2,
        jsOr_of_falsy hm3, jsOr_of_falsy hm4, jsOr_of_falsy ha1, jsOr_of_falsy ha2,
        jsOr_of_falsy ha3, hd, List.foldlM]
      rfl
    exact ⟨_, heq, rfl, rfl, rfl⟩


/-- Witness for C6 (amended) at a two-item Woo payload and a bare item. -/
theorem normalizer_total_on_wellformed_witness :
    (wfPayload samplePayload = true ∧
     (extractItemsFromIncoming samplePayload).isOk = true) ∧
    (bareItem sampleBare = true ∧
     ∃ item, normalizeItem sampleBare = .ok item ∧
       item.quantity = 1 ∧ item.size = "" ∧ item.technique = "") :=
  ⟨⟨by decide, normalizer_total_on_wellformed.1 samplePayload (by decide)⟩,
   ⟨by decide, normalizer_total_on_wellformed.2 sampleBare (by decide)⟩⟩

end WcToSupabase
